import Mathlib

/-!
Verification of the SM2 MQV key-exchange core (`sm2/sm2_keyexchange.go`).

The protocol code is embedded shallowly.  Its external collaborators —
the elliptic-curve arithmetic provider, the SM3 streaming hash, the
KDF, the identity-digest computer `CalculateZA`, the fixed-width
serialization `bigIntToBytes` and the `defaultUID` constant — live
outside the verified sources; they are modelled as an abstract
environment `Env` (functions the protocol calls), and, where the spec
pins down their shape, by definitions marked `Modelled from the spec`.
Big integers carried by the protocol are non-negative, so they are
embedded as `Nat`; byte strings as `List Nat`.
-/

namespace GmsmKX

/-- An affine curve point as the Go code carries it: a pair of
non-negative big integers.  The pair (0,0) encodes the point at
infinity, exactly as in the Go code's `Sign() == 0` checks. -/
structure Point where
  x : Nat
  y : Nat
deriving DecidableEq, Repr

/-- Embeds `ecdsa.PublicKey`: a curve identifier plus an affine point. -/
structure PubKey where
  curve : Nat
  pt : Point
deriving DecidableEq, Repr

/-- Embeds `sm2.PrivateKey`: curve identifier, private scalar `D`, and the
embedded public key point. -/
structure PrivateKey where
  curve : Nat
  d : Nat
  pub : Point
deriving DecidableEq, Repr

/-- The external collaborators of the protocol core (spec §6): curve
order and arithmetic, on-curve validation, field-element byte width,
the SM3 hash as a function on byte strings, and the identity-digest
computer `CalculateZA` (which may fail, returning `none`). -/
structure Env where
  N : Nat
  byteLen : Nat
  isOnCurve : Point → Bool
  scalarBaseMult : Nat → Point
  scalarMult : Point → Nat → Point
  add : Point → Point → Point
  hash : List Nat → List Nat
  calcZA : Point → List Nat → Option (List Nat)

/-- The `KeyExchange` session struct.  Fields that are nil pointers /
nil slices in Go until assigned are embedded as `Option`. -/
structure KeyExchange where
  genSignature : Bool
  keyLength : Nat
  privateKey : PrivateKey
  z : List Nat
  peerPub : Option PubKey
  peerZ : Option (List Nat)
  r : Option Nat
  secret : Option Point
  peerSecret : Option Point
  w2 : Nat
  w2Minus1 : Nat
  v : Option Point
deriving DecidableEq, Repr

/-- Structural helper for `bitLen` (`fuel` bounds the recursion
depth). -/
def bitLenAux (fuel n : Nat) : Nat :=
  match fuel with
  | 0 => 0
  | fuel + 1 => if n = 0 then 0 else bitLenAux fuel (n / 2) + 1

/-- Embeds `big.Int.BitLen`: the length of the binary representation
(0 for 0).  Agrees with Mathlib's `Nat.size` (`bitLen_eq_size`). -/
def bitLen (n : Nat) : Nat :=
  bitLenAux n n

/-- Modelled from the spec: the standard 16-byte ASCII default UID
"1234567812345678" (`defaultUID` is declared outside the verified
sources). -/
def defaultUID : List Nat :=
  [0x31, 0x32, 0x33, 0x34, 0x35, 0x36, 0x37, 0x38,
   0x31, 0x32, 0x33, 0x34, 0x35, 0x36, 0x37, 0x38]

/-- Embeds the default-UID substitution: an empty UID is replaced by
`defaultUID`, as in `NewKeyExchange` and `SetPeerParameters`. -/
def uidOrDefault (uid : List Nat) : List Nat :=
  if uid.isEmpty then defaultUID else uid

/-- Modelled from the spec: `bigIntToBytes` (outside the verified
sources) is the fixed-width big-endian serialization of a coordinate,
left-padded with zero bytes to the curve's field-element byte
length. -/
def natToBytesBE (len x : Nat) : List Nat :=
  (List.range len).map (fun i => x / 256 ^ (len - 1 - i) % 256)

/-- Modelled from the spec: `sm3.Kdf` (outside the verified sources),
the counter-mode KDF built on the hash: concatenate
`hash (input ++ counter)` blocks and truncate to `klen` bytes. -/
def Kdf (e : Env) (input : List Nat) (klen : Nat) : List Nat :=
  (((List.range ((klen + 31) / 32)).map
      (fun ct => e.hash (input ++ [ct + 1]))).flatten).take klen

/-- Embeds `subtle.ConstantTimeCompare`: 1 iff the two byte strings have equal
length and contents, 0 otherwise. -/
def constantTimeCompare (a b : List Nat) : Nat :=
  if a = b then 1 else 0

/-- Embeds `destroyBytes`: zero every byte in place. -/
def destroyBytes (bs : List Nat) : List Nat :=
  bs.map (fun _ => 0)

/-- Embeds `Destroy`: wipe the identity digests, the ephemeral scalar
(`destroyBigInt` sets it to 0) and the combination point's coordinates
(`destroyPublicKey` zeroes X and Y when non-nil). -/
def Destroy (ke : KeyExchange) : KeyExchange :=
  { ke with
    z := destroyBytes ke.z
    peerZ := ke.peerZ.map destroyBytes
    r := ke.r.map (fun _ => 0)
    v := ke.v.map (fun _ => ⟨0, 0⟩) }

/-- Embeds `SetPeerParameters`.  Returns the (possibly partially mutated)
session together with the error, mirroring that the Go method mutates
the receiver in place: on a `CalculateZA` failure, `ke.peerPub` has
already been assigned and `ke.peerZ` receives the nil result. -/
def SetPeerParameters (e : Env) (ke : KeyExchange) (peerPub : Option PubKey)
    (peerUID : List Nat) : KeyExchange × Option String :=
  match peerPub with
  | none => (ke, none)
  | some pp =>
    let peerUID := uidOrDefault peerUID
    if ke.peerPub.isSome then
      (ke, some "sm2: \x27peerPub\x27 already exists, please do not set it")
    else if pp.curve ≠ ke.privateKey.curve then
      (ke, some "sm2: peer public key is not expected/supported")
    else
      match e.calcZA pp.pt peerUID with
      | none => ({ ke with peerPub := some pp, peerZ := none },
                 some "sm2: calculateZA failure")
      | some zb => ({ ke with peerPub := some pp, peerZ := some zb }, none)

/-- Embeds `NewKeyExchange`: computes the window constants `w2 = 2^w`,
`w2Minus1 = 2^w - 1` with `w = (N.BitLen()+1)/2 - 1`, the local
identity digest, and binds the peer parameters when supplied. -/
def NewKeyExchange (e : Env) (priv : PrivateKey) (peerPub : Option PubKey)
    (uid peerUID : List Nat) (keyLen : Nat) (genSignature : Bool) :
    Except String KeyExchange :=
  let w := (bitLen e.N + 1) / 2 - 1
  let w2 := 2 ^ w
  let ke0 : KeyExchange :=
    { genSignature := genSignature, keyLength := keyLen, privateKey := priv,
      z := [], peerPub := none, peerZ := none, r := none, secret := none,
      peerSecret := none, w2 := w2, w2Minus1 := w2 - 1, v := none }
  match e.calcZA priv.pub (uidOrDefault uid) with
  | none => .error "sm2: calculateZA failure"
  | some z =>
    match SetPeerParameters e { ke0 with z := z } peerPub peerUID with
    | (_, some err) => .error err
    | (ke2, none) => .ok ke2

/-- Embeds `initKeyExchange` (the deterministic core of `InitKeyExchange`,
which draws `r` from the randomness source and delegates here):
`secret = r·G`, store `r`. -/
def initKeyExchange (e : Env) (ke : KeyExchange) (r : Nat) : KeyExchange :=
  { ke with secret := some (e.scalarBaseMult r), r := some r }

/-- Embeds `avf`, the associative value function:
`t = And(w2Minus1, x); t = w2 + t`. -/
def avf (ke : KeyExchange) (x : Nat) : Nat :=
  ke.w2 + (ke.w2Minus1 &&& x)

/-- Embeds `mqv`, the SM2-MQV combination: `t = (avf(secret.X)·r + d) mod N`;
`x1 = avf(peerSecret.X)`; `v = t · (peerPub + x1·peerSecret)`.
Fields the Go code dereferences are read with a (0,0)/0 default. -/
def mqv (e : Env) (ke : KeyExchange) : KeyExchange :=
  let secret := ke.secret.getD ⟨0, 0⟩
  let peerSecret := ke.peerSecret.getD ⟨0, 0⟩
  let peerPub := (ke.peerPub.map PubKey.pt).getD ⟨0, 0⟩
  let t := (avf ke secret.x * ke.r.getD 0 + ke.privateKey.d) % e.N
  let x1 := avf ke peerSecret.x
  let p1 := e.scalarMult peerSecret x1
  let p2 := e.add peerPub p1
  { ke with v := some (e.scalarMult p2 t) }

/-- Embeds `sign`: inner SM3 hash over `v.X` and the role-ordered identity
digests and ephemeral coordinates, then outer SM3 hash over the prefix
byte, `v.Y` and the inner digest. -/
def sign (e : Env) (ke : KeyExchange) (isResponder : Bool) (pfx : Nat) :
    List Nat :=
  let bl := e.byteLen
  let vp := ke.v.getD ⟨0, 0⟩
  let secret := ke.secret.getD ⟨0, 0⟩
  let peerSecret := ke.peerSecret.getD ⟨0, 0⟩
  let peerZ := ke.peerZ.getD []
  let inner := e.hash (natToBytesBE bl vp.x ++
    (if isResponder then
      peerZ ++ ke.z ++ natToBytesBE bl peerSecret.x ++ natToBytesBE bl peerSecret.y ++
        natToBytesBE bl secret.x ++ natToBytesBE bl secret.y
     else
      ke.z ++ peerZ ++ natToBytesBE bl secret.x ++ natToBytesBE bl secret.y ++
        natToBytesBE bl peerSecret.x ++ natToBytesBE bl peerSecret.y))
  e.hash ([pfx] ++ natToBytesBE bl vp.y ++ inner)

/-- Embeds `generateSharedKey`: KDF over `v.X` and `v.Y` and the role-ordered
identity digests, producing `keyLength` bytes. -/
def generateSharedKey (e : Env) (ke : KeyExchange) (isResponder : Bool) :
    List Nat :=
  let bl := e.byteLen
  let vp := ke.v.getD ⟨0, 0⟩
  let peerZ := ke.peerZ.getD []
  Kdf e (natToBytesBE bl vp.x ++ natToBytesBE bl vp.y ++
    (if isResponder then peerZ ++ ke.z else ke.z ++ peerZ)) ke.keyLength

/-- Embeds `respondKeyExchange` (the deterministic core of
`RepondKeyExchange`, which draws `r` and delegates here). -/
def respondKeyExchange (e : Env) (ke : KeyExchange) (rA : Point) (r : Nat) :
    Except String (KeyExchange × Point × Option (List Nat)) :=
  if ke.peerPub.isNone then .error "sm2: no peer public key given"
  else if ¬ e.isOnCurve rA then
    .error "sm2: invalid initiator\x27s ephemeral public key"
  else
    let ke1 := { ke with peerSecret := some rA,
                         secret := some (e.scalarBaseMult r), r := some r }
    let ke2 := mqv e ke1
    let vp := ke2.v.getD ⟨0, 0⟩
    if vp.x = 0 ∧ vp.y = 0 then
      .error "sm2: key exchange failed, V is infinity point"
    else if ¬ ke2.genSignature then .ok (ke2, e.scalarBaseMult r, none)
    else .ok (ke2, e.scalarBaseMult r, some (sign e ke2 true 2))

/-- Embeds `ConfirmResponder`: validate the responder's ephemeral point, run
MQV, reject an infinite combination point, verify a present responder
tag, derive the shared key, and optionally emit the final tag. -/
def ConfirmResponder (e : Env) (ke : KeyExchange) (rB : Point)
    (sB : Option (List Nat)) :
    Except String (KeyExchange × List Nat × Option (List Nat)) :=
  if ke.peerPub.isNone then .error "sm2: no peer public key given"
  else if ¬ e.isOnCurve rB then
    .error "sm2: invalid responder\x27s ephemeral public key"
  else
    let ke1 := { ke with peerSecret := some rB }
    let ke2 := mqv e ke1
    let vp := ke2.v.getD ⟨0, 0⟩
    if vp.x = 0 ∧ vp.y = 0 then
      .error "sm2: key exchange failed, U is infinity point"
    else if 0 < (sB.getD []).length ∧
        constantTimeCompare (sign e ke2 false 2) (sB.getD []) ≠ 1 then
      .error "sm2: invalid responder\x27s signature"
    else
      let key := generateSharedKey e ke2 false
      if ¬ ke2.genSignature then .ok (ke2, key, none)
      else .ok (ke2, key, some (sign e ke2 false 3))

/-- Embeds `ConfirmInitiator`: the `s1 != nil` check distinguishes a nil slice
(`none`, skip verification) from a present one (`some`), including the
present-but-empty slice. -/
def ConfirmInitiator (e : Env) (ke : KeyExchange) (s1 : Option (List Nat)) :
    Except String (List Nat) :=
  match s1 with
  | some tag =>
    if constantTimeCompare (sign e ke true 3) tag ≠ 1 then
      .error "sm2: invalid initiator\x27s signature"
    else .ok (generateSharedKey e ke true)
  | none => .ok (generateSharedKey e ke true)

/-- The untampered two-party flow of spec §2/§8: both sessions built by
`NewKeyExchange` holding each other's public keys, then
`InitKeyExchange → RepondKeyExchange → ConfirmResponder →
ConfirmInitiator` with the drawn ephemeral scalars `rA`, `rB` made
explicit.  Returns the two derived keys. -/
def runFlow (e : Env) (c dA dB : Nat) (uidA uidB : List Nat) (keyLen : Nat)
    (genSig : Bool) (rA rB : Nat) : Except String (List Nat × List Nat) :=
  let pA : Point := e.scalarBaseMult dA
  let pB : Point := e.scalarBaseMult dB
  match NewKeyExchange e ⟨c, dA, pA⟩ (some ⟨c, pB⟩) uidA uidB keyLen genSig with
  | .error msg => .error msg
  | .ok kA =>
    match NewKeyExchange e ⟨c, dB, pB⟩ (some ⟨c, pA⟩) uidB uidA keyLen genSig with
    | .error msg => .error msg
    | .ok kB =>
      let kA1 := initKeyExchange e kA rA
      match respondKeyExchange e kB (e.scalarBaseMult rA) rB with
      | .error msg => .error msg
      | .ok (kB1, rBpt, sB) =>
        match ConfirmResponder e kA1 rBpt sB with
        | .error msg => .error msg
        | .ok (_, keyA, sA) =>
          match ConfirmInitiator e kB1 sA with
          | .error msg => .error msg
          | .ok keyB => .ok (keyA, keyB)

/-- The window constant `2^w` as `NewKeyExchange` computes it from the
curve order. -/
def envW2 (e : Env) : Nat :=
  2 ^ ((bitLen e.N + 1) / 2 - 1)

/-- The associative value with the window constants of `e`'s curve. -/
def avfN (e : Env) (x : Nat) : Nat :=
  envW2 e + ((envW2 e - 1) &&& x)

/-- The scalar with which, algebraically, both parties' MQV combination
point equals `scalarBaseMult` of it: `(tA · tB) mod N` with
`tA = avf(RA.x)·rA + dA` and `tB = avf(RB.x)·rB + dB`. -/
def combinedScalar (e : Env) (dA dB rA rB : Nat) : Nat :=
  ((avfN e (e.scalarBaseMult rA).x * rA + dA) *
    (avfN e (e.scalarBaseMult rB).x * rB + dB)) % e.N

/-! ### Concrete instantiation material

`tEnv` is a small concrete environment (a degenerate "curve" given by
the additive group of integers mod 5 carried in the x-coordinate, with
(0,0) as the zero point) used to instantiate the theorems below on
closed inputs. -/

def tEnv : Env where
  N := 5
  byteLen := 1
  isOnCurve := fun _ => true
  scalarBaseMult := fun s => ⟨s % 5, 0⟩
  scalarMult := fun p k => ⟨k * p.x % 5, 0⟩
  add := fun p q => ⟨(p.x + q.x) % 5, 0⟩
  hash := fun s => List.replicate 32 (s.length % 256)
  calcZA := fun p uid => some [p.x % 256, uid.length % 256]

/-- A fully populated concrete session state over `tEnv`. -/
def tKE : KeyExchange where
  genSignature := true
  keyLength := 16
  privateKey := ⟨0, 1, ⟨1, 0⟩⟩
  z := [7, 8]
  peerPub := some ⟨0, ⟨2, 0⟩⟩
  peerZ := some [9]
  r := some 3
  secret := some ⟨3, 0⟩
  peerSecret := some ⟨4, 0⟩
  w2 := 2
  w2Minus1 := 1
  v := some ⟨4, 0⟩

/-! ### C9 — Destroy wipes the sensitive fields -/

/-- C9: after `Destroy`, every byte of the local identity digest `z`
and of the peer identity digest `peerZ` is zero, the ephemeral scalar
`r` (when non-nil) equals 0, and the combination point `v` (when
non-nil) has both coordinates 0. -/
theorem C9_destroy_wipes (ke : KeyExchange) :
    (∀ b ∈ (Destroy ke).z, b = 0) ∧
    (∀ l, (Destroy ke).peerZ = some l → ∀ b ∈ l, b = 0) ∧
    (ke.r.isSome = true → (Destroy ke).r = some 0) ∧
    (∀ p, (Destroy ke).v = some p → p = ⟨0, 0⟩) := by
  refine ⟨?_, ?_, ?_, ?_⟩
  · intro b hb
    simp [Destroy, destroyBytes] at hb
    exact hb.2
  · intro l hl b hb
    cases hpz : ke.peerZ with
    | none => simp [Destroy, hpz] at hl
    | some l0 =>
      simp [Destroy, hpz, destroyBytes] at hl
      subst hl
      simp at hb
      exact hb.2
  · intro hr
    cases hr0 : ke.r with
    | none => simp [hr0] at hr
    | some rv => simp [Destroy, hr0]
  · intro p hp
    cases hv0 : ke.v with
    | none => simp [Destroy, hv0] at hp
    | some pv =>
      simp [Destroy, hv0] at hp
      exact hp.symm

theorem C9_destroy_wipes_witness :
    (∀ b ∈ (Destroy tKE).z, b = 0) ∧ (Destroy tKE).r = some 0 ∧
    Destroy tKE = { tKE with z := [0, 0], peerZ := some [0],
                             r := some 0, v := some ⟨0, 0⟩ } :=
  ⟨(C9_destroy_wipes tKE).1, (C9_destroy_wipes tKE).2.2.1 (by decide), by decide⟩

/-! ### C5 — precondition checks of the receiving operations -/

/-- C5: `respondKeyExchange` fails with the no-peer-key error when no
peer long-term key is bound, and with the invalid-ephemeral-key error
when the received point is off-curve, before the MQV step runs;
`ConfirmResponder` performs the same two checks. -/
theorem C5_precondition_checks (e : Env) (ke : KeyExchange) (rA rB : Point)
    (r : Nat) (sB : Option (List Nat)) :
    (ke.peerPub = none →
      respondKeyExchange e ke rA r = .error "sm2: no peer public key given") ∧
    (ke.peerPub.isSome = true → e.isOnCurve rA = false →
      respondKeyExchange e ke rA r =
        .error "sm2: invalid initiator\x27s ephemeral public key") ∧
    (ke.peerPub = none →
      ConfirmResponder e ke rB sB = .error "sm2: no peer public key given") ∧
    (ke.peerPub.isSome = true → e.isOnCurve rB = false →
      ConfirmResponder e ke rB sB =
        .error "sm2: invalid responder\x27s ephemeral public key") := by
  refine ⟨fun h => ?_, fun h1 h2 => ?_, fun h => ?_, fun h1 h2 => ?_⟩
  · simp [respondKeyExchange, h]
  · cases hp : ke.peerPub with
    | none => rw [hp] at h1; simp at h1
    | some p => simp [respondKeyExchange, hp, h2]
  · simp [ConfirmResponder, h]
  · cases hp : ke.peerPub with
    | none => rw [hp] at h1; simp at h1
    | some p => simp [ConfirmResponder, hp, h2]

theorem C5_precondition_checks_witness :
    respondKeyExchange tEnv { tKE with peerPub := none } ⟨1, 1⟩ 2 =
      .error "sm2: no peer public key given" ∧
    ConfirmResponder { tEnv with isOnCurve := fun _ => false } tKE ⟨1, 1⟩ none =
      .error "sm2: invalid responder\x27s ephemeral public key" :=
  ⟨(C5_precondition_checks tEnv { tKE with peerPub := none } ⟨1, 1⟩ ⟨1, 1⟩ 2
      none).1 rfl,
   (C5_precondition_checks { tEnv with isOnCurve := fun _ => false } tKE ⟨1, 1⟩
      ⟨1, 1⟩ 2 none).2.2.2 (by decide) rfl⟩

/-! ### Sanity: `bitLen` agrees with Mathlib's `Nat.size` -/

theorem size_eq_size_div2_add_one {n : Nat} (h : n ≠ 0) :
    Nat.size n = Nat.size (n / 2) + 1 := by
  conv_lhs => rw [← Nat.bit_decomp n]
  rw [Nat.size_bit (by rw [Nat.bit_decomp]; exact h), Nat.div2_val]

theorem bitLenAux_eq_size : ∀ fuel n, n ≤ fuel → bitLenAux fuel n = Nat.size n := by
  intro fuel
  induction fuel with
  | zero =>
    intro n hn
    have : n = 0 := Nat.le_zero.mp hn
    subst this
    simp [bitLenAux]
  | succ f ih =>
    intro n hn
    by_cases h : n = 0
    · simp [bitLenAux, h]
    · rw [bitLenAux, if_neg h, ih (n / 2) (by omega),
        ← size_eq_size_div2_add_one h]

theorem bitLen_eq_size (n : Nat) : bitLen n = Nat.size n :=
  bitLenAux_eq_size n n Nat.le.refl

/-! ### C4 — an infinite combination point aborts the exchange -/

/-- C4: whenever the MQV combination point `v` equals (0,0), both
`respondKeyExchange` and `ConfirmResponder` return the
infinity-point error and produce no ephemeral point, tag, or key. -/
theorem C4_infinity_aborts (e : Env) (ke ke' : KeyExchange) (rA rB : Point)
    (r : Nat) (sB : Option (List Nat)) :
    (ke.peerPub.isSome = true → e.isOnCurve rA = true →
      (mqv e { ke with peerSecret := some rA,
                       secret := some (e.scalarBaseMult r), r := some r }).v =
        some ⟨0, 0⟩ →
      respondKeyExchange e ke rA r =
        .error "sm2: key exchange failed, V is infinity point") ∧
    (ke'.peerPub.isSome = true → e.isOnCurve rB = true →
      (mqv e { ke' with peerSecret := some rB }).v = some ⟨0, 0⟩ →
      ConfirmResponder e ke' rB sB =
        .error "sm2: key exchange failed, U is infinity point") := by
  constructor
  · intro h1 h2 hv
    cases hp : ke.peerPub with
    | none => rw [hp] at h1; simp at h1
    | some p =>
      rw [hp] at hv
      simp [respondKeyExchange, hp, h2, hv]
  · intro h1 h2 hv
    cases hp : ke'.peerPub with
    | none => rw [hp] at h1; simp at h1
    | some p =>
      rw [hp] at hv
      simp [ConfirmResponder, hp, h2, hv]

/-- A session state over `tEnv` whose MQV combination collapses to the
zero point (all scalars 0). -/
def tKE0 : KeyExchange :=
  { tKE with privateKey := ⟨0, 0, ⟨1, 0⟩⟩, r := some 0,
             secret := some ⟨0, 0⟩, peerSecret := some ⟨0, 0⟩,
             peerPub := some ⟨0, ⟨0, 0⟩⟩ }

theorem C4_infinity_aborts_witness :
    respondKeyExchange tEnv tKE0 ⟨0, 0⟩ 0 =
      .error "sm2: key exchange failed, V is infinity point" ∧
    ConfirmResponder tEnv tKE0 ⟨0, 0⟩ none =
      .error "sm2: key exchange failed, U is infinity point" :=
  ⟨(C4_infinity_aborts tEnv tKE0 tKE0 ⟨0, 0⟩ ⟨0, 0⟩ 0 none).1
      (by decide) (by decide) (by decide),
   (C4_infinity_aborts tEnv tKE0 tKE0 ⟨0, 0⟩ ⟨0, 0⟩ 0 none).2
      (by decide) (by decide) (by decide)⟩

/-! ### C6 — confirmation-tag mismatch is rejected -/

/-- C6: a present responder tag differing from the recomputed expected
tag (responder role, prefix 0x02) makes `ConfirmResponder` fail with
the invalid-responder-signature error; a present initiator tag
differing from the recomputed expected tag (initiator role, prefix
0x03) makes `ConfirmInitiator` fail with the
invalid-initiator-signature error.  No key is returned. -/
theorem C6_tag_mismatch_rejected (e : Env) (ke kei : KeyExchange) (rB : Point)
    (tag tagi : List Nat) :
    (ke.peerPub.isSome = true → e.isOnCurve rB = true →
      ¬ (((mqv e { ke with peerSecret := some rB }).v.getD ⟨0, 0⟩).x = 0 ∧
         ((mqv e { ke with peerSecret := some rB }).v.getD ⟨0, 0⟩).y = 0) →
      tag ≠ [] →
      tag ≠ sign e (mqv e { ke with peerSecret := some rB }) false 2 →
      ConfirmResponder e ke rB (some tag) =
        .error "sm2: invalid responder\x27s signature") ∧
    (tagi ≠ sign e kei true 3 →
      ConfirmInitiator e kei (some tagi) =
        .error "sm2: invalid initiator\x27s signature") := by
  constructor
  · intro h1 h2 hvne htne htag
    cases hp : ke.peerPub with
    | none => rw [hp] at h1; simp at h1
    | some p =>
      rw [hp] at hvne htag
      have hlen : 0 < tag.length := by
        cases tag with
        | nil => exact absurd rfl htne
        | cons a l => simp
      simp only [ConfirmResponder, hp, h2, Option.isNone_some,
        Bool.false_eq_true, if_false, not_true, Option.getD_some]
      rw [if_neg hvne, if_pos]
      refine ⟨hlen, ?_⟩
      simp [constantTimeCompare]
      exact fun hEq => absurd hEq.symm htag
  · intro htag
    simp only [ConfirmInitiator]
    rw [if_pos]
    simp [constantTimeCompare]
    exact fun hEq => absurd hEq.symm htag

/-- A session over `tEnv` whose MQV combination with peer ephemeral
point (1,0) is a nonzero point. -/
def tKE6 : KeyExchange :=
  { tKE with r := some 1, peerPub := some ⟨0, ⟨3, 0⟩⟩ }

theorem C6_tag_mismatch_rejected_witness :
    ConfirmResponder tEnv tKE6 ⟨1, 0⟩ (some [9]) =
      .error "sm2: invalid responder\x27s signature" ∧
    ConfirmInitiator tEnv tKE6 (some [9]) =
      .error "sm2: invalid initiator\x27s signature" :=
  ⟨(C6_tag_mismatch_rejected tEnv tKE6 tKE6 ⟨1, 0⟩ [9] [9]).1
      (by decide) (by decide) (by decide) (by decide) (by decide),
   (C6_tag_mismatch_rejected tEnv tKE6 tKE6 ⟨1, 0⟩ [9] [9]).2 (by decide)⟩

/-! ### C10 — asymmetric treatment of zero-length tags -/

/-- C10: `ConfirmResponder` treats a present-but-empty responder tag
exactly like an absent one (the `len(sB) > 0` guard), while
`ConfirmInitiator` treats every non-nil tag as present; since the
expected tag has 32 bytes and the constant-time comparison of slices
of different lengths never succeeds, a present empty initiator tag is
always rejected with the invalid-initiator-signature error. -/
theorem C10_zero_length_tag_asymmetry (e : Env) (ke kei : KeyExchange)
    (rB : Point) (hHash : ∀ s, (e.hash s).length = 32) :
    ConfirmResponder e ke rB (some []) = ConfirmResponder e ke rB none ∧
    ConfirmInitiator e kei (some []) =
      .error "sm2: invalid initiator\x27s signature" := by
  constructor
  · simp [ConfirmResponder]
  · have hlen : (sign e kei true 3).length = 32 := hHash _
    have hne : sign e kei true 3 ≠ [] := by
      intro h
      rw [h] at hlen
      simp at hlen
    simp only [ConfirmInitiator]
    rw [if_pos]
    simp [constantTimeCompare, hne]

theorem C10_zero_length_tag_asymmetry_witness :
    ConfirmResponder tEnv tKE ⟨1, 0⟩ (some []) =
      ConfirmResponder tEnv tKE ⟨1, 0⟩ none ∧
    ConfirmInitiator tEnv tKE (some []) =
      .error "sm2: invalid initiator\x27s signature" :=
  C10_zero_length_tag_asymmetry tEnv tKE tKE ⟨1, 0⟩
    (fun s => by simp [tEnv])

/-! ### C8 — window constants and the associative-value range -/

/-- Helper: `SetPeerParameters` never touches the window constants. -/
theorem setPeerParameters_w2 (e : Env) (ke : KeyExchange)
    (pp : Option PubKey) (u : List Nat) :
    (SetPeerParameters e ke pp u).1.w2 = ke.w2 ∧
    (SetPeerParameters e ke pp u).1.w2Minus1 = ke.w2Minus1 := by
  cases pp with
  | none => exact ⟨rfl, rfl⟩
  | some p =>
    simp only [SetPeerParameters]
    split
    · exact ⟨rfl, rfl⟩
    · split
      · exact ⟨rfl, rfl⟩
      · cases e.calcZA p.pt (uidOrDefault u) <;> exact ⟨rfl, rfl⟩

/-- If `SetPeerParameters` returns `(ke2, err)`, then `ke2` keeps the
window constants of the input session. -/
theorem setPeerParameters_fst_w2 (e : Env) (ke : KeyExchange)
    (pp : Option PubKey) (u : List Nat) (ke2 : KeyExchange)
    (err : Option String) (h : SetPeerParameters e ke pp u = (ke2, err)) :
    ke2.w2 = ke.w2 ∧ ke2.w2Minus1 = ke.w2Minus1 := by
  have h2 := setPeerParameters_w2 e ke pp u
  rw [h] at h2
  exact h2

/-- C8: `NewKeyExchange` sets `w2 = 2^w` and `w2Minus1 = 2^w − 1` with
`w = (bitlen(N)+1)/2 − 1`; no later operation modifies them; and for
every field element `x`, `avf x = 2^w + (x AND (2^w − 1))` lies in
`[2^w, 2^(w+1) − 1]`. -/
theorem C8_window_constants_and_avf_range (e : Env) (priv : PrivateKey)
    (pp : Option PubKey) (uid puid : List Nat) (kl : Nat) (gs : Bool)
    (ke : KeyExchange) (h : NewKeyExchange e priv pp uid puid kl gs = .ok ke) :
    ke.w2 = 2 ^ ((bitLen e.N + 1) / 2 - 1) ∧
    ke.w2Minus1 = 2 ^ ((bitLen e.N + 1) / 2 - 1) - 1 ∧
    (∀ pp2 u2, (SetPeerParameters e ke pp2 u2).1.w2 = ke.w2 ∧
               (SetPeerParameters e ke pp2 u2).1.w2Minus1 = ke.w2Minus1) ∧
    (∀ r, (initKeyExchange e ke r).w2 = ke.w2 ∧
          (initKeyExchange e ke r).w2Minus1 = ke.w2Minus1) ∧
    ((mqv e ke).w2 = ke.w2 ∧ (mqv e ke).w2Minus1 = ke.w2Minus1) ∧
    (∀ rA r ke2 pt s, respondKeyExchange e ke rA r = .ok (ke2, pt, s) →
        ke2.w2 = ke.w2 ∧ ke2.w2Minus1 = ke.w2Minus1) ∧
    (∀ rB sB ke2 k s, ConfirmResponder e ke rB sB = .ok (ke2, k, s) →
        ke2.w2 = ke.w2 ∧ ke2.w2Minus1 = ke.w2Minus1) ∧
    ((Destroy ke).w2 = ke.w2 ∧ (Destroy ke).w2Minus1 = ke.w2Minus1) ∧
    (∀ x : Nat, avf ke x = ke.w2 + (x &&& ke.w2Minus1) ∧
        ke.w2 ≤ avf ke x ∧
        avf ke x ≤ 2 ^ ((bitLen e.N + 1) / 2 - 1 + 1) - 1) := by
  have hw : ke.w2 = 2 ^ ((bitLen e.N + 1) / 2 - 1) ∧
      ke.w2Minus1 = 2 ^ ((bitLen e.N + 1) / 2 - 1) - 1 := by
    simp only [NewKeyExchange] at h
    split at h
    · exact absurd h (by simp)
    · split at h
      · exact absurd h (by simp)
      · rename_i ke2 hsp
        simp only [Except.ok.injEq] at h
        subst h
        simpa using setPeerParameters_fst_w2 e _ pp puid _ _ hsp
  refine ⟨hw.1, hw.2, fun pp2 u2 => setPeerParameters_w2 e ke pp2 u2,
    fun r => ⟨rfl, rfl⟩, ⟨rfl, rfl⟩, ?_, ?_, ⟨rfl, rfl⟩, ?_⟩
  · intro rA r ke2 pt s hr
    simp only [respondKeyExchange] at hr
    split at hr
    · exact absurd hr (by simp)
    · split at hr
      · exact absurd hr (by simp)
      · split at hr
        · exact absurd hr (by simp)
        · split at hr <;>
            · simp only [Except.ok.injEq, Prod.mk.injEq] at hr
              rcases hr with ⟨hke, _⟩
              subst hke
              exact ⟨rfl, rfl⟩
  · intro rB sB ke2 k s hr
    simp only [ConfirmResponder] at hr
    split at hr
    · exact absurd hr (by simp)
    · split at hr
      · exact absurd hr (by simp)
      · split at hr
        · exact absurd hr (by simp)
        · split at hr
          · exact absurd hr (by simp)
          · split at hr <;>
              · simp only [Except.ok.injEq, Prod.mk.injEq] at hr
                rcases hr with ⟨hke, _⟩
                subst hke
                exact ⟨rfl, rfl⟩
  · intro x
    refine ⟨by rw [avf, Nat.land_comm, hw.2], Nat.le_add_right _ _, ?_⟩
    have hpos : 0 < 2 ^ ((bitLen e.N + 1) / 2 - 1) := Nat.pos_pow_of_pos _ (by omega)
    rw [avf, hw.1, hw.2, pow_succ]
    have hland : (2 ^ ((bitLen e.N + 1) / 2 - 1) - 1) &&& x ≤
        2 ^ ((bitLen e.N + 1) / 2 - 1) - 1 := Nat.and_le_left
    omega

/-- The session produced by `NewKeyExchange` over `tEnv` with local
key (d=1), peer public point (2,0) and default UIDs. -/
def keW8 : KeyExchange where
  genSignature := true
  keyLength := 16
  privateKey := ⟨0, 1, ⟨1, 0⟩⟩
  z := [1, 16]
  peerPub := some ⟨0, ⟨2, 0⟩⟩
  peerZ := some [2, 16]
  r := none
  secret := none
  peerSecret := none
  w2 := 2
  w2Minus1 := 1
  v := none

theorem C8_window_constants_and_avf_range_witness :
    NewKeyExchange tEnv ⟨0, 1, ⟨1, 0⟩⟩ (some ⟨0, ⟨2, 0⟩⟩) [] [] 16 true =
      .ok keW8 ∧
    keW8.w2 = 2 ∧ keW8.w2Minus1 = 1 ∧
    avf keW8 3 = keW8.w2 + (3 &&& keW8.w2Minus1) ∧
    keW8.w2 ≤ avf keW8 3 ∧ avf keW8 3 ≤ 3 := by
  have h := C8_window_constants_and_avf_range tEnv ⟨0, 1, ⟨1, 0⟩⟩
    (some ⟨0, ⟨2, 0⟩⟩) [] [] 16 true keW8 (by rfl)
  exact ⟨by rfl, by decide, by decide, (h.2.2.2.2.2.2.2.2 3).1,
    (h.2.2.2.2.2.2.2.2 3).2.1, by decide⟩

/-! ### C2 — `mqv` refines the spec's five-step Combine definition -/

/-- Modelled from the spec (spec-side definition for refinement):
`AssociativeValue(x) = 2^w + (x AND (2^w − 1))`. -/
def avfSpec (w x : Nat) : Nat :=
  2 ^ w + (x &&& (2 ^ w - 1))

/-- Modelled from the spec (spec-side definition for refinement): the
five-step Combine — `t = AssociativeValue(ownEphemeralPublicPoint.x)`;
`t = (t·r + d) mod order`; `x1 = AssociativeValue(peerEphemeralPoint.x)`;
`basePoint = peerLongTermPoint + x1·peerEphemeralPoint`;
`v = t·basePoint`. -/
def combineSpec (e : Env) (w : Nat) (r d : Nat) (ownEph : Point)
    (peerLong peerEph : Point) : Point :=
  let t1 := avfSpec w ownEph.x
  let t2 := (t1 * r + d) % e.N
  let x1 := avfSpec w peerEph.x
  let basePoint := e.add peerLong (e.scalarMult peerEph x1)
  e.scalarMult basePoint t2

/-- C2: for every session state in which the own/peer ephemeral points
and the peer public key are set and whose window constants are
`2^w`/`2^w − 1`, `mqv` stores as `v` exactly the spec's five-step
Combine of the own ephemeral scalar, the own private scalar, the peer
long-term point and the peer ephemeral point, leaving every other
field unchanged — a deterministic function of those inputs, with no
randomness. -/
theorem C2_mqv_refines_combine (e : Env) (ke : KeyExchange) (w : Nat)
    (s ps : Point) (pp : PubKey) (r : Nat)
    (hw2 : ke.w2 = 2 ^ w) (hw2m : ke.w2Minus1 = 2 ^ w - 1)
    (hs : ke.secret = some s) (hps : ke.peerSecret = some ps)
    (hpp : ke.peerPub = some pp) (hr : ke.r = some r) :
    mqv e ke =
      { ke with v := some (combineSpec e w r ke.privateKey.d s pp.pt ps) } := by
  simp only [mqv, combineSpec, avf, avfSpec, hw2, hw2m, hs, hps, hpp, hr,
    Option.getD_some, Option.map_some']
  simp [Nat.land_comm]

theorem C2_mqv_refines_combine_witness :
    mqv tEnv tKE =
      { tKE with v := some (combineSpec tEnv 1 3 tKE.privateKey.d ⟨3, 0⟩
          ⟨2, 0⟩ ⟨4, 0⟩) } :=
  C2_mqv_refines_combine tEnv tKE 1 ⟨3, 0⟩ ⟨4, 0⟩ ⟨0, ⟨2, 0⟩⟩ 3
    rfl rfl rfl rfl rfl rfl

/-! ### C3 — `sign` refines the spec's two-stage tag construction -/

/-- Modelled from the spec (spec-side definition for refinement): the
two-stage confirmation-tag construction of §4.5 — an inner hash over
the combined point's x-coordinate and the role-ordered identity
digests and ephemeral coordinates (responder order: peerZ, ownZ,
peer-ephemeral-x, peer-ephemeral-y, own-ephemeral-x, own-ephemeral-y;
initiator order is the mirror), then an outer hash over the single
prefix byte, the combined point's y-coordinate and the inner digest,
all coordinates serialized fixed-width zero-padded. -/
def computeTagSpec (e : Env) (isResponderRole : Bool) (prefixByte : Nat)
    (vPt : Point) (ownZ peerZ : List Nat) (ownEph peerEph : Point) :
    List Nat :=
  let bl := e.byteLen
  let inner := e.hash (natToBytesBE bl vPt.x ++
    (if isResponderRole then
      peerZ ++ ownZ ++ natToBytesBE bl peerEph.x ++ natToBytesBE bl peerEph.y ++
        natToBytesBE bl ownEph.x ++ natToBytesBE bl ownEph.y
     else
      ownZ ++ peerZ ++ natToBytesBE bl ownEph.x ++ natToBytesBE bl ownEph.y ++
        natToBytesBE bl peerEph.x ++ natToBytesBE bl peerEph.y))
  e.hash ([prefixByte] ++ natToBytesBE bl vPt.y ++ inner)

/-- C3: for every session state with `v`, `z`, `peerZ` and the two
ephemeral points set, the confirmation tag `sign isResponder prefix`
equals the spec's two-stage construction. -/
theorem C3_sign_refines_tag_spec (e : Env) (ke : KeyExchange) (b : Bool)
    (pfx : Nat) (vp s ps : Point) (pz : List Nat)
    (hv : ke.v = some vp) (hs : ke.secret = some s)
    (hps : ke.peerSecret = some ps) (hpz : ke.peerZ = some pz) :
    sign e ke b pfx = computeTagSpec e b pfx vp ke.z pz s ps := by
  cases b <;>
    simp only [sign, computeTagSpec, hv, hs, hps, hpz, Option.getD_some,
      Bool.false_eq_true, if_false, if_true]

theorem C3_sign_refines_tag_spec_witness :
    sign tEnv tKE true 2 =
      computeTagSpec tEnv true 2 ⟨4, 0⟩ tKE.z [9] ⟨3, 0⟩ ⟨4, 0⟩ :=
  C3_sign_refines_tag_spec tEnv tKE true 2 ⟨4, 0⟩ ⟨3, 0⟩ ⟨4, 0⟩ [9]
    rfl rfl rfl rfl

/-! ### C7 — the peer-field pairing invariant

The claim fails on the code: when the peer digest computation fails,
`SetPeerParameters` has already bound `peerPub`, returns an error, and
leaves `peerZ` absent — `peerPub` set without `peerZ`. -/

/-- Variant of `tEnv` with a failing identity-digest computer. -/
def cEnv : Env :=
  { tEnv with calcZA := fun _ _ => none }

/-- A session with no peer parameters bound yet. -/
def ke70 : KeyExchange :=
  { tKE with peerPub := none, peerZ := none }

/-- C7 counterexample: a `SetPeerParameters` call whose peer digest
computation fails returns an error, yet leaves the session with
`peerPub` set and `peerZ` absent, and with the peer fields changed. -/
theorem C7_peer_fields_counterexample :
    (SetPeerParameters cEnv ke70 (some ⟨0, ⟨1, 1⟩⟩) []).2.isSome = true ∧
    ¬ ((SetPeerParameters cEnv ke70 (some ⟨0, ⟨1, 1⟩⟩) []).1.peerPub.isSome ↔
       (SetPeerParameters cEnv ke70 (some ⟨0, ⟨1, 1⟩⟩) []).1.peerZ.isSome) ∧
    (SetPeerParameters cEnv ke70 (some ⟨0, ⟨1, 1⟩⟩) []).1 ≠ ke70 := by
  decide

/-- A successful `SetPeerParameters` call preserves the peer-field
pairing invariant. -/
theorem setPeerParameters_ok_peer_iff (e : Env) (ke : KeyExchange)
    (pk : Option PubKey) (u : List Nat)
    (h : (SetPeerParameters e ke pk u).2 = none)
    (hke : ke.peerPub.isSome ↔ ke.peerZ.isSome) :
    ((SetPeerParameters e ke pk u).1.peerPub.isSome ↔
     (SetPeerParameters e ke pk u).1.peerZ.isSome) := by
  cases pk with
  | none => exact hke
  | some p =>
    simp only [SetPeerParameters] at h ⊢
    split at h
    · simp at h
    · split at h
      · simp at h
      · split at h
        · simp at h
        · rename_i h1 h2 x zb hzb
          rw [if_neg h1, if_neg h2]
          simp

/-- C7 amended: the peer fields are both absent or both present after
construction and after every `SetPeerParameters` call, except on the
peer-digest-failure path; an erroring call leaves the session
unchanged when the error is the already-bound or wrong-curve check,
while a digest-computation failure errors with `peerPub` already bound
and `peerZ` absent. -/
theorem C7_peer_fields_amended (e : Env) (ke ke0 : KeyExchange) (pp : PubKey)
    (peerUID : List Nat) (priv : PrivateKey) (pk : Option PubKey)
    (uid puid : List Nat) (kl : Nat) (gs : Bool) :
    (NewKeyExchange e priv pk uid puid kl gs = .ok ke0 →
       (ke0.peerPub.isSome ↔ ke0.peerZ.isSome)) ∧
    (∀ pk2 : Option PubKey, (SetPeerParameters e ke pk2 peerUID).2 = none →
       (ke.peerPub.isSome ↔ ke.peerZ.isSome) →
       ((SetPeerParameters e ke pk2 peerUID).1.peerPub.isSome ↔
        (SetPeerParameters e ke pk2 peerUID).1.peerZ.isSome)) ∧
    (ke.peerPub.isSome = true ∨ pp.curve ≠ ke.privateKey.curve →
       (SetPeerParameters e ke (some pp) peerUID).1 = ke ∧
       (SetPeerParameters e ke (some pp) peerUID).2.isSome = true) ∧
    (ke.peerPub = none → pp.curve = ke.privateKey.curve →
       e.calcZA pp.pt (uidOrDefault peerUID) = none →
       (SetPeerParameters e ke (some pp) peerUID).1 =
         { ke with peerPub := some pp, peerZ := none } ∧
       (SetPeerParameters e ke (some pp) peerUID).2.isSome = true) := by
  refine ⟨?_, ?_, ?_, ?_⟩
  · intro h
    simp only [NewKeyExchange] at h
    split at h
    · exact absurd h (by simp)
    · split at h
      · exact absurd h (by simp)
      · rename_i ke2 hsp
        simp only [Except.ok.injEq] at h
        subst h
        have e1 := congrArg Prod.fst hsp
        have e2 := congrArg Prod.snd hsp
        have h3 := setPeerParameters_ok_peer_iff e _ pk puid e2 (by simp)
        rw [e1] at h3
        exact h3
  · intro pk2 h hke
    exact setPeerParameters_ok_peer_iff e ke pk2 peerUID h hke
  · intro h
    rcases h with h | h
    · simp [SetPeerParameters, h]
    · by_cases h1 : ke.peerPub.isSome = true
      · simp [SetPeerParameters, h1]
      · simp [SetPeerParameters, h1, h]
  · intro h1 h2 h3
    simp [SetPeerParameters, h1, h2, h3]

theorem C7_peer_fields_amended_witness :
    (keW8.peerPub.isSome ↔ keW8.peerZ.isSome) ∧
    (SetPeerParameters tEnv tKE (some ⟨0, ⟨9, 9⟩⟩) []).1 = tKE ∧
    (SetPeerParameters tEnv tKE (some ⟨0, ⟨9, 9⟩⟩) []).2.isSome = true := by
  have h := C7_peer_fields_amended tEnv tKE keW8 ⟨0, ⟨9, 9⟩⟩ []
    ⟨0, 1, ⟨1, 0⟩⟩ (some ⟨0, ⟨2, 0⟩⟩) [] [] 16 true
  exact ⟨h.1 (by rfl), (h.2.2.1 (Or.inl (by decide))).1,
    (h.2.2.1 (Or.inl (by decide))).2⟩

/-! ### C1 — the untampered full flow agrees on the shared key

Helper lemmas: modular arithmetic for the MQV scalar, and the KDF
output length. -/

theorem mod_mul_add_aux (N a b c : Nat) :
    ((a % N) * ((b + c % N) % N)) % N = (a * (c + b)) % N := by
  have h1 : b + c % N ≡ c + b [MOD N] := by
    calc b + c % N ≡ b + c [MOD N] := Nat.ModEq.add_left b (Nat.mod_modEq c N)
    _ = c + b := Nat.add_comm b c
  exact (Nat.mod_modEq a N).mul ((Nat.mod_modEq _ N).trans h1)

theorem sum_map_const_range (n cv : Nat) :
    ((List.range n).map (fun _ => cv)).sum = n * cv := by
  induction n with
  | zero => simp
  | succ m ih =>
    rw [List.range_succ, List.map_append, List.sum_append, ih]
    simp [Nat.succ_mul]

theorem Kdf_length (e : Env) (input : List Nat) (klen : Nat)
    (hHash : ∀ s, (e.hash s).length = 32) :
    (Kdf e input klen).length = klen := by
  rw [Kdf, List.length_take]
  have hlen : (((List.range ((klen + 31) / 32)).map
      (fun ct => e.hash (input ++ [ct + 1]))).flatten).length =
      ((klen + 31) / 32) * 32 := by
    rw [List.length_flatten, List.map_map]
    have hfun : (List.length ∘ fun ct => e.hash (input ++ [ct + 1])) =
        fun _ => (32 : Nat) := funext fun ct => hHash _
    rw [hfun, sum_map_const_range]
  rw [hlen]
  omega

/-- The session `NewKeyExchange` builds for a party with honest key
material: own key pair `(dOwn, dOwn·G)`, peer public point
`dPeer·G`, identity digests `zOwn`/`zPeer`. -/
def freshSession (e : Env) (c dOwn dPeer : Nat) (zOwn zPeer : List Nat)
    (kl : Nat) (gs : Bool) : KeyExchange where
  genSignature := gs
  keyLength := kl
  privateKey := ⟨c, dOwn, e.scalarBaseMult dOwn⟩
  z := zOwn
  peerPub := some ⟨c, e.scalarBaseMult dPeer⟩
  peerZ := some zPeer
  r := none
  secret := none
  peerSecret := none
  w2 := envW2 e
  w2Minus1 := envW2 e - 1
  v := none

/-- The responder's session after `respondKeyExchange` in the honest
flow: ephemeral data stored and the MQV combination point
`(tA·tB mod N)·G` computed. -/
def postRespond (e : Env) (c dA dB : Nat) (zA zB : List Nat) (kl : Nat)
    (gs : Bool) (rA rB : Nat) : KeyExchange where
  genSignature := gs
  keyLength := kl
  privateKey := ⟨c, dB, e.scalarBaseMult dB⟩
  z := zB
  peerPub := some ⟨c, e.scalarBaseMult dA⟩
  peerZ := some zA
  r := some rB
  secret := some (e.scalarBaseMult rB)
  peerSecret := some (e.scalarBaseMult rA)
  w2 := envW2 e
  w2Minus1 := envW2 e - 1
  v := some (e.scalarBaseMult (combinedScalar e dA dB rA rB))

/-- The initiator's session after `ConfirmResponder` in the honest
flow: the same combination point, mirrored roles. -/
def postConfirm (e : Env) (c dA dB : Nat) (zA zB : List Nat) (kl : Nat)
    (gs : Bool) (rA rB : Nat) : KeyExchange where
  genSignature := gs
  keyLength := kl
  privateKey := ⟨c, dA, e.scalarBaseMult dA⟩
  z := zA
  peerPub := some ⟨c, e.scalarBaseMult dB⟩
  peerZ := some zB
  r := some rA
  secret := some (e.scalarBaseMult rA)
  peerSecret := some (e.scalarBaseMult rB)
  w2 := envW2 e
  w2Minus1 := envW2 e - 1
  v := some (e.scalarBaseMult (combinedScalar e dA dB rA rB))

/-- The shared key both parties derive in the honest flow. -/
def sharedKeyVal (e : Env) (dA dB rA rB : Nat) (zA zB : List Nat)
    (kl : Nat) : List Nat :=
  Kdf e (natToBytesBE e.byteLen
          (e.scalarBaseMult (combinedScalar e dA dB rA rB)).x ++
        natToBytesBE e.byteLen
          (e.scalarBaseMult (combinedScalar e dA dB rA rB)).y ++
        (zA ++ zB)) kl

/-- Helper: `NewKeyExchange` on honest key material yields `freshSession`. -/
theorem newKE_honest (e : Env) (c dOwn dPeer kl : Nat)
    (uid puid zOwn zPeer : List Nat) (gs : Bool)
    (hzOwn : e.calcZA (e.scalarBaseMult dOwn) (uidOrDefault uid) = some zOwn)
    (hzPeer : e.calcZA (e.scalarBaseMult dPeer) (uidOrDefault puid) = some zPeer) :
    NewKeyExchange e ⟨c, dOwn, e.scalarBaseMult dOwn⟩
        (some ⟨c, e.scalarBaseMult dPeer⟩) uid puid kl gs =
      .ok (freshSession e c dOwn dPeer zOwn zPeer kl gs) := by
  simp only [NewKeyExchange, SetPeerParameters, freshSession, envW2,
    hzOwn, hzPeer]
  simp

/-- The responder-side MQV combination in the honest flow. -/
theorem mqv_responder_v (e : Env) (c dA dB : Nat) (zA zB : List Nat)
    (kl : Nat) (gs : Bool) (rA rB : Nat)
    (hBase : ∀ a b : Nat, e.add (e.scalarBaseMult a) (e.scalarBaseMult b) =
      e.scalarBaseMult ((a + b) % e.N))
    (hMult : ∀ a k : Nat, e.scalarMult (e.scalarBaseMult a) k =
      e.scalarBaseMult (k * a % e.N)) :
    mqv e { freshSession e c dB dA zB zA kl gs with
            peerSecret := some (e.scalarBaseMult rA),
            secret := some (e.scalarBaseMult rB), r := some rB } =
      postRespond e c dA dB zA zB kl gs rA rB := by
  simp only [mqv, freshSession, postRespond, avf, combinedScalar, avfN,
    Option.getD_some, Option.map_some']
  rw [hMult, hBase, hMult, mod_mul_add_aux,
    Nat.mul_comm ((envW2 e + (envW2 e - 1 &&& (e.scalarBaseMult rB).x)) * rB + dB)]

/-- The initiator-side MQV combination in the honest flow. -/
theorem mqv_initiator_v (e : Env) (c dA dB : Nat) (zA zB : List Nat)
    (kl : Nat) (gs : Bool) (rA rB : Nat)
    (hBase : ∀ a b : Nat, e.add (e.scalarBaseMult a) (e.scalarBaseMult b) =
      e.scalarBaseMult ((a + b) % e.N))
    (hMult : ∀ a k : Nat, e.scalarMult (e.scalarBaseMult a) k =
      e.scalarBaseMult (k * a % e.N)) :
    mqv e { initKeyExchange e (freshSession e c dA dB zA zB kl gs) rA with
            peerSecret := some (e.scalarBaseMult rB) } =
      postConfirm e c dA dB zA zB kl gs rA rB := by
  simp only [mqv, initKeyExchange, freshSession, postConfirm, avf,
    combinedScalar, avfN, Option.getD_some, Option.map_some']
  rw [hMult, hBase, hMult, mod_mul_add_aux]

/-- Helper: `respondKeyExchange` in the honest flow. -/
theorem respond_honest (e : Env) (c dA dB : Nat) (zA zB : List Nat)
    (kl : Nat) (gs : Bool) (rA rB : Nat)
    (hBase : ∀ a b : Nat, e.add (e.scalarBaseMult a) (e.scalarBaseMult b) =
      e.scalarBaseMult ((a + b) % e.N))
    (hMult : ∀ a k : Nat, e.scalarMult (e.scalarBaseMult a) k =
      e.scalarBaseMult (k * a % e.N))
    (honA : e.isOnCurve (e.scalarBaseMult rA) = true)
    (hv : ¬ ((e.scalarBaseMult (combinedScalar e dA dB rA rB)).x = 0 ∧
             (e.scalarBaseMult (combinedScalar e dA dB rA rB)).y = 0)) :
    respondKeyExchange e (freshSession e c dB dA zB zA kl gs)
        (e.scalarBaseMult rA) rB =
      .ok (postRespond e c dA dB zA zB kl gs rA rB, e.scalarBaseMult rB,
           if gs then
             some (sign e (postRespond e c dA dB zA zB kl gs rA rB) true 2)
           else none) := by
  have hm := mqv_responder_v e c dA dB zA zB kl gs rA rB hBase hMult
  have h2 : (postRespond e c dA dB zA zB kl gs rA rB).v =
      some (e.scalarBaseMult (combinedScalar e dA dB rA rB)) := rfl
  have h3 : (postRespond e c dA dB zA zB kl gs rA rB).genSignature = gs := rfl
  simp only [freshSession] at hm
  simp only [respondKeyExchange, freshSession, hm, h2, h3, Option.isNone_some,
    Bool.false_eq_true, if_false, honA, Bool.not_true, Option.getD_some]
  rw [if_neg hv]
  cases gs
  · simp
  · simp

/-- Helper: `ConfirmResponder` in the honest flow: the recomputed responder
tag matches, the key is derived, and the final tag is produced when
enabled. -/
theorem confirmResponder_honest (e : Env) (c dA dB : Nat) (zA zB : List Nat)
    (kl : Nat) (gs : Bool) (rA rB : Nat)
    (hBase : ∀ a b : Nat, e.add (e.scalarBaseMult a) (e.scalarBaseMult b) =
      e.scalarBaseMult ((a + b) % e.N))
    (hMult : ∀ a k : Nat, e.scalarMult (e.scalarBaseMult a) k =
      e.scalarBaseMult (k * a % e.N))
    (honB : e.isOnCurve (e.scalarBaseMult rB) = true)
    (hv : ¬ ((e.scalarBaseMult (combinedScalar e dA dB rA rB)).x = 0 ∧
             (e.scalarBaseMult (combinedScalar e dA dB rA rB)).y = 0)) :
    ConfirmResponder e
        (initKeyExchange e (freshSession e c dA dB zA zB kl gs) rA)
        (e.scalarBaseMult rB)
        (if gs then
           some (sign e (postRespond e c dA dB zA zB kl gs rA rB) true 2)
         else none) =
      .ok (postConfirm e c dA dB zA zB kl gs rA rB,
           sharedKeyVal e dA dB rA rB zA zB kl,
           if gs then
             some (sign e (postConfirm e c dA dB zA zB kl gs rA rB) false 3)
           else none) := by
  have hm := mqv_initiator_v e c dA dB zA zB kl gs rA rB hBase hMult
  have h2 : (postConfirm e c dA dB zA zB kl gs rA rB).v =
      some (e.scalarBaseMult (combinedScalar e dA dB rA rB)) := rfl
  have h3 : (postConfirm e c dA dB zA zB kl gs rA rB).genSignature = gs := rfl
  have hsign2 : sign e (postConfirm e c dA dB zA zB kl gs rA rB) false 2 =
      sign e (postRespond e c dA dB zA zB kl gs rA rB) true 2 := rfl
  have hkey : generateSharedKey e (postConfirm e c dA dB zA zB kl gs rA rB)
      false = sharedKeyVal e dA dB rA rB zA zB kl := rfl
  simp only [initKeyExchange, freshSession] at hm
  simp only [ConfirmResponder, initKeyExchange, freshSession, hm, h2, h3,
    Option.isNone_some, Bool.false_eq_true, if_false, honB, Bool.not_true,
    Option.getD_some, hkey]
  rw [if_neg hv]
  have hc : constantTimeCompare
      (sign e (postConfirm e c dA dB zA zB kl gs rA rB) false 2)
      (sign e (postRespond e c dA dB zA zB kl gs rA rB) true 2) = 1 := by
    rw [hsign2]
    simp [constantTimeCompare]
  cases gs
  · simp
  · simp [hc]

/-- Helper: `ConfirmInitiator` in the honest flow. -/
theorem confirmInitiator_honest (e : Env) (c dA dB : Nat) (zA zB : List Nat)
    (kl : Nat) (gs : Bool) (rA rB : Nat) :
    ConfirmInitiator e (postRespond e c dA dB zA zB kl gs rA rB)
        (if gs then
           some (sign e (postConfirm e c dA dB zA zB kl gs rA rB) false 3)
         else none) =
      .ok (sharedKeyVal e dA dB rA rB zA zB kl) := by
  have hsign3 : sign e (postConfirm e c dA dB zA zB kl gs rA rB) false 3 =
      sign e (postRespond e c dA dB zA zB kl gs rA rB) true 3 := rfl
  have hkey : generateSharedKey e (postRespond e c dA dB zA zB kl gs rA rB)
      true = sharedKeyVal e dA dB rA rB zA zB kl := rfl
  cases gs
  · simp only [if_false, Bool.false_eq_true, ConfirmInitiator, hkey]
  · simp only [if_true, ConfirmInitiator, hsign3, constantTimeCompare, hkey]
    simp

/-- C1: for every pair of sessions built from valid local/peer SM2 key
pairs and UIDs over a curve provider satisfying the group laws, with
honest on-curve ephemeral points and a non-infinite combination point,
the untampered flow `InitKeyExchange → RepondKeyExchange →
ConfirmResponder → ConfirmInitiator` yields the same shared-key byte
string on both sides, of exactly `keyLength` bytes. -/
theorem C1_full_flow_shared_key (e : Env) (c dA dB keyLen : Nat)
    (uidA uidB zA zB : List Nat) (genSig : Bool) (rA rB : Nat)
    (hBase : ∀ a b : Nat, e.add (e.scalarBaseMult a) (e.scalarBaseMult b) =
      e.scalarBaseMult ((a + b) % e.N))
    (hMult : ∀ a k : Nat, e.scalarMult (e.scalarBaseMult a) k =
      e.scalarBaseMult (k * a % e.N))
    (hHash : ∀ s, (e.hash s).length = 32)
    (hzA : e.calcZA (e.scalarBaseMult dA) (uidOrDefault uidA) = some zA)
    (hzB : e.calcZA (e.scalarBaseMult dB) (uidOrDefault uidB) = some zB)
    (honA : e.isOnCurve (e.scalarBaseMult rA) = true)
    (honB : e.isOnCurve (e.scalarBaseMult rB) = true)
    (hv : ¬ ((e.scalarBaseMult (combinedScalar e dA dB rA rB)).x = 0 ∧
             (e.scalarBaseMult (combinedScalar e dA dB rA rB)).y = 0)) :
    runFlow e c dA dB uidA uidB keyLen genSig rA rB =
      .ok (sharedKeyVal e dA dB rA rB zA zB keyLen,
           sharedKeyVal e dA dB rA rB zA zB keyLen) ∧
    (sharedKeyVal e dA dB rA rB zA zB keyLen).length = keyLen := by
  constructor
  · have hKA := newKE_honest e c dA dB keyLen uidA uidB zA zB genSig hzA hzB
    have hKB := newKE_honest e c dB dA keyLen uidB uidA zB zA genSig hzB hzA
    have hR := respond_honest e c dA dB zA zB keyLen genSig rA rB
      hBase hMult honA hv
    have hC := confirmResponder_honest e c dA dB zA zB keyLen genSig rA rB
      hBase hMult honB hv
    have hCI := confirmInitiator_honest e c dA dB zA zB keyLen genSig rA rB
    simp only [runFlow, hKA, hKB, hR, hC, hCI]
  · exact Kdf_length e _ keyLen hHash

/-- Fact: `tEnv` point addition satisfies the base-multiple group law. -/
theorem tEnv_hBase : ∀ a b : Nat,
    tEnv.add (tEnv.scalarBaseMult a) (tEnv.scalarBaseMult b) =
      tEnv.scalarBaseMult ((a + b) % tEnv.N) := by
  intro a b
  simp only [tEnv, Point.mk.injEq]
  constructor
  · omega
  · trivial

/-- Fact: `tEnv` scalar multiplication satisfies the base-multiple group
law. -/
theorem tEnv_hMult : ∀ a k : Nat,
    tEnv.scalarMult (tEnv.scalarBaseMult a) k =
      tEnv.scalarBaseMult (k * a % tEnv.N) := by
  intro a k
  simp only [tEnv, Point.mk.injEq]
  constructor
  · have h1 : k * (a % 5) % 5 = k * a % 5 := (Nat.mod_modEq a 5).mul_left k
    have h2 : k * a % 5 % 5 = k * a % 5 := Nat.mod_mod_of_dvd (k * a) (dvd_refl 5)
    exact h1.trans h2.symm
  · trivial

theorem C1_full_flow_shared_key_witness :
    runFlow tEnv 0 1 2 [] [] 16 true 1 3 =
      .ok (sharedKeyVal tEnv 1 2 1 3 [1, 16] [2, 16] 16,
           sharedKeyVal tEnv 1 2 1 3 [1, 16] [2, 16] 16) ∧
    (sharedKeyVal tEnv 1 2 1 3 [1, 16] [2, 16] 16).length = 16 :=
  C1_full_flow_shared_key tEnv 0 1 2 16 [] [] [1, 16] [2, 16] true 1 3
    tEnv_hBase tEnv_hMult (fun s => by simp [tEnv]) (by rfl) (by rfl)
    (by rfl) (by rfl) (by decide)

end GmsmKX
